import Mathlib

/-!
Shallow embedding of the chart component in `src/grapn.tsx`.

JavaScript numbers are modelled as rationals (`ℚ`).  Division in `ℚ` is
total with `q / 0 = 0`; at the one place where the source genuinely divides
by zero (the gridline position `i / xSteps` when the step count is `0`,
which under IEEE semantics produces `NaN`) we instead use an
`Option ℚ`-valued division `jsDiv` where `none` stands for a value that is
not a well-defined finite number (`NaN` or `±Infinity`), and `none`
propagates through subsequent arithmetic, as `NaN` does.  Everywhere else
the source's arithmetic is exact affine arithmetic, faithfully mirrored
over `ℚ`.
-/

/-- `Math.min(...list)` over a non-empty spread, as in `calculateScales`.
The empty case never arises for a valid series; we return `0` there. -/
def dMin : List ℚ → ℚ
  | [] => 0
  | a :: r => r.foldl min a

/-- `Math.max(...list)` over a non-empty spread, as in `calculateScales`. -/
def dMax : List ℚ → ℚ
  | [] => 0
  | a :: r => r.foldl max a

/-- JavaScript `q || 1`: a numeric value is falsy exactly when it is `0`
(the `NaN` case cannot arise here, the argument is `max - min` of finite
inputs).  Used for the scale denominators in `calculateScales`. -/
def orOne (q : ℚ) : ℚ := if q = 0 then 1 else q

/-- The transient record returned by `calculateScales`. -/
structure Scales where
  minX : ℚ
  maxX : ℚ
  minY : ℚ
  maxY : ℚ
  scaleX : ℚ
  scaleY : ℚ
deriving Repr, DecidableEq

/-- `calculateScales` from `src/grapn.tsx` lines 28–38:
componentwise min/max and
`scaleX = (width - 2*margin) / (maxX - minX || 1)`,
`scaleY = (height - 2*margin) / (maxY - minY || 1)`. -/
def calculateScales (xs ys : List ℚ) (width height margin : ℚ) : Scales :=
  let minX := dMin xs
  let maxX := dMax xs
  let minY := dMin ys
  let maxY := dMax ys
  { minX := minX, maxX := maxX, minY := minY, maxY := maxY
    scaleX := (width - 2 * margin) / orOne (maxX - minX)
    scaleY := (height - 2 * margin) / orOne (maxY - minY) }

/-- `toCanvasX` from `getCoordinateConverters` (lines 41–49). -/
def toCanvasX (s : Scales) (margin x : ℚ) : ℚ :=
  margin + (x - s.minX) * s.scaleX

/-- `toCanvasY` from `getCoordinateConverters`. -/
def toCanvasY (s : Scales) (height margin y : ℚ) : ℚ :=
  height - margin - (y - s.minY) * s.scaleY

/-- `toDataX` from `getCoordinateConverters`. -/
def toDataX (s : Scales) (margin canvasX : ℚ) : ℚ :=
  s.minX + (canvasX - margin) / s.scaleX

/-- `toDataY` from `getCoordinateConverters`. -/
def toDataY (s : Scales) (height margin canvasY : ℚ) : ℚ :=
  s.minY + (height - margin - canvasY) / s.scaleY

theorem orOne_ne_zero (q : ℚ) : orOne q ≠ 0 := by
  unfold orOne; split <;> simp_all

theorem scaleX_eq (xs ys : List ℚ) (w h m : ℚ) :
    (calculateScales xs ys w h m).scaleX = (w - 2 * m) / orOne (dMax xs - dMin xs) := rfl

theorem scaleY_eq (xs ys : List ℚ) (w h m : ℚ) :
    (calculateScales xs ys w h m).scaleY = (h - 2 * m) / orOne (dMax ys - dMin ys) := rfl

theorem minX_eq (xs ys : List ℚ) (w h m : ℚ) :
    (calculateScales xs ys w h m).minX = dMin xs := rfl

theorem minY_eq (xs ys : List ℚ) (w h m : ℚ) :
    (calculateScales xs ys w h m).minY = dMin ys := rfl

/-- The demo dataset fed to the view by the `App` component (lines 232–233). -/
def appDataX : List ℚ := [0, 1, 2, 3, 4, 5, 6, 7, 8, 9]

/-- The demo Y data (`y = x²`). -/
def appDataY : List ℚ := [0, 1, 4, 9, 16, 25, 36, 49, 64, 81]

/-- C6: whenever an axis has zero range (max = min), the scale denominator
is replaced by 1, so no division by zero occurs and the scale factor is
`width − 2·margin` (resp. `height − 2·margin`). -/
theorem degenerate_range_scale (xs ys : List ℚ) (w h m : ℚ) :
    (dMax xs = dMin xs →
      orOne (dMax xs - dMin xs) = 1 ∧
      (calculateScales xs ys w h m).scaleX = w - 2 * m) ∧
    (dMax ys = dMin ys →
      orOne (dMax ys - dMin ys) = 1 ∧
      (calculateScales xs ys w h m).scaleY = h - 2 * m) := by
  constructor <;> intro hdeg <;>
    simp [calculateScales, orOne, hdeg, sub_self]

/-- Witness for C6 at the constant series X = [5,5], Y = [7,7]. -/
theorem degenerate_range_scale_witness :
    (calculateScales [5, 5] [7, 7] 600 400 50).scaleX = 500 := by
  have h := (degenerate_range_scale [5, 5] [7, 7] 600 400 50).1 (by decide)
  rw [h.2]; norm_num

/-- C5 counterexample: for X = [5], Y = [5] with the default view
configuration (600 × 400, margin 50), `scaleX` is 500, not 1 — it is the
*denominator* that resolves to 1, not the scale factor. -/
theorem singlePoint_scale_counterexample :
    (calculateScales [5] [5] 600 400 50).scaleX ≠ 1 := by
  norm_num [calculateScales, dMin, dMax, orOne]

/-- C5 (amended): for X = [5], Y = [5] the scale computation divides by
the substituted denominator 1 (no division by zero), and the scales
resolve to `width − 2·margin` and `height − 2·margin`. -/
theorem singlePoint_scales (w h m : ℚ) :
    orOne (dMax [(5 : ℚ)] - dMin [(5 : ℚ)]) = 1 ∧
    (calculateScales [5] [5] w h m).scaleX = w - 2 * m ∧
    (calculateScales [5] [5] w h m).scaleY = h - 2 * m := by
  refine ⟨by norm_num [dMax, dMin, orOne], ?_, ?_⟩ <;>
    simp [calculateScales, dMin, dMax, orOne]

/-- C1 counterexample: with width = 100 and margin = 50 (both positive, so
a ViewConfig the spec admits) the X scale factor is `(100 − 100)/1 = 0`,
`toCanvasX` collapses every x to the margin, and the round trip does not
return x = 1.  (In the rational model `0/0 = 0`, so the round trip yields
`minX = 0`; under IEEE arithmetic it yields `NaN`; either way it is
not 1.) -/
theorem roundTrip_counterexample :
    toDataX (calculateScales [0, 1] [0, 1] 100 400 50) 50
      (toCanvasX (calculateScales [0, 1] [0, 1] 100 400 50) 50 1) ≠ 1 := by
  norm_num [calculateScales, dMin, dMax, orOne, toDataX, toCanvasX]

/-- C1 (amended): provided `width ≠ 2·margin` and `height ≠ 2·margin`
(equivalently both scale factors are nonzero), the converters built from
the same `Scales` instance are exact inverses:
`toDataX (toCanvasX x) = x` and `toDataY (toCanvasY y) = y` for every
x, y and every valid series. -/
theorem roundTrip_exact (xs ys : List ℚ) (w h m x y : ℚ)
    (hw : w - 2 * m ≠ 0) (hh : h - 2 * m ≠ 0) :
    toDataX (calculateScales xs ys w h m) m
        (toCanvasX (calculateScales xs ys w h m) m x) = x ∧
    toDataY (calculateScales xs ys w h m) h m
        (toCanvasY (calculateScales xs ys w h m) h m y) = y := by
  have hx : (calculateScales xs ys w h m).scaleX ≠ 0 := by
    rw [scaleX_eq]; exact div_ne_zero hw (orOne_ne_zero _)
  have hy : (calculateScales xs ys w h m).scaleY ≠ 0 := by
    rw [scaleY_eq]; exact div_ne_zero hh (orOne_ne_zero _)
  constructor
  · unfold toDataX toCanvasX
    field_simp
  · unfold toDataY toCanvasY
    field_simp

/-- Witness for C1 (amended) at the default configuration and x = y = 1/3. -/
theorem roundTrip_exact_witness :
    toDataX (calculateScales [0, 1] [0, 1] 600 400 50) 50
        (toCanvasX (calculateScales [0, 1] [0, 1] 600 400 50) 50 (1/3)) = 1/3 :=
  (roundTrip_exact [0, 1] [0, 1] 600 400 50 (1/3) 7
    (by norm_num) (by norm_num)).1

/-- C7: on the demo dataset X = [0..9], Y = [0,1,4,…,81], for every view
configuration the forward mapping sends the data corners to the drawing
corners: `toCanvasX 0 = margin`, `toCanvasX 9 = width − margin`,
`toCanvasY 0 = height − margin`, `toCanvasY 81 = margin`. -/
theorem forward_mapping_corners (w h m : ℚ) :
    toCanvasX (calculateScales appDataX appDataY w h m) m 0 = m ∧
    toCanvasX (calculateScales appDataX appDataY w h m) m 9 = w - m ∧
    toCanvasY (calculateScales appDataX appDataY w h m) h m 0 = h - m ∧
    toCanvasY (calculateScales appDataX appDataY w h m) h m 81 = m := by
  have hs : calculateScales appDataX appDataY w h m =
      { minX := 0, maxX := 9, minY := 0, maxY := 81
        scaleX := (w - 2 * m) / 9, scaleY := (h - 2 * m) / 81 } := by
    have h1 : dMin appDataX = 0 := by decide
    have h2 : dMax appDataX = 9 := by decide
    have h3 : dMin appDataY = 0 := by decide
    have h4 : dMax appDataY = 81 := by decide
    simp [calculateScales, h1, h2, h3, h4, orOne]
  rw [hs]
  refine ⟨?_, ?_, ?_, ?_⟩ <;> simp [toCanvasX, toCanvasY] <;> ring

/-- `d < minDistance` where `minDistance` may still be `Infinity`
(encoded `none`), as at the start of the nearest-point scan. -/
def ltOpt (d : ℚ) : Option ℚ → Bool
  | none => true
  | some v => d < v

/-- One iteration of the nearest-point loop of `handleMouseMove`
(lines 186–198), over squared distances.  The source compares Euclidean
distances: `distance < 20 && distance < minDistance`.  Since the square
root is strictly monotone on nonnegative reals, these comparisons are
equivalent to `distSq < 400` and `distSq < minDistSq`, which is the exact
form tracked here; the state is `(closestIndex, minDistance²)` with
`none` for the initial `-1` / `Infinity`. -/
def hitStep (dsq : ℚ) (i : ℕ) (s : Option ℕ × Option ℚ) : Option ℕ × Option ℚ :=
  if dsq < 400 ∧ ltOpt dsq s.2 then (some i, some dsq) else s

/-- State of the nearest-point loop after scanning indices `0 … n−1`. -/
def hitState (d : ℕ → ℚ) : ℕ → Option ℕ × Option ℚ
  | 0 => (none, none)
  | n + 1 => hitStep (d n) n (hitState d n)

/-- The `closestIndex` produced by the scan; `none` encodes the `-1`
that `handleMouseMove` maps to `null`. -/
def hitTest (d : ℕ → ℚ) (n : ℕ) : Option ℕ := (hitState d n).1

/-- Squared Euclidean pixel distance from the pointer to point `i`'s
pixel position, exactly as computed inline in `handleMouseMove`
(lines 187–192): `canvasX = margin + (xData[i] - minX) * scaleX`,
`canvasY = height - margin - (yData[i] - minY) * scaleY`. -/
def distSq (xs ys : List ℚ) (w h m mx my : ℚ) (i : ℕ) : ℚ :=
  let s := calculateScales xs ys w h m
  let canvasX := m + (xs.getD i 0 - s.minX) * s.scaleX
  let canvasY := h - m - (ys.getD i 0 - s.minY) * s.scaleY
  (mx - canvasX) ^ 2 + (my - canvasY) ^ 2

/-- `handleMouseMove` (lines 171–201): scan all points, keep the first
strict minimum among those within the threshold, return its index
(`none` for `null`). -/
def handleMouseMove (xs ys : List ℚ) (w h m mx my : ℚ) : Option ℕ :=
  hitTest (distSq xs ys w h m mx my) xs.length

/-- `handleMouseLeave` (lines 203–205): unconditionally clear the hover
state. -/
def handleMouseLeave : Option ℕ := none

theorem distSq_nonneg (xs ys : List ℚ) (w h m mx my : ℚ) (i : ℕ) :
    0 ≤ distSq xs ys w h m mx my i := by
  unfold distSq; positivity

/-- Loop invariant of the nearest-point scan: after scanning `0 … n−1`
the state is either untouched (every scanned squared distance is ≥ 400)
or holds the first index attaining the minimum scanned squared distance,
that minimum being < 400. -/
theorem hitState_spec (d : ℕ → ℚ) (n : ℕ) :
    (hitState d n = (none, none) ∧ ∀ j < n, 400 ≤ d j) ∨
    (∃ k, hitState d n = (some k, some (d k)) ∧ k < n ∧ d k < 400 ∧
      (∀ j < n, d k ≤ d j) ∧ (∀ j < k, d k < d j)) := by
  induction n with
  | zero => exact Or.inl ⟨rfl, by omega⟩
  | succ n ih =>
    rcases ih with ⟨hst, hall⟩ | ⟨k, hst, hk, h400, hmin, hfirst⟩
    · by_cases hdn : d n < 400
      · refine Or.inr ⟨n, ?_, by omega, hdn, ?_, ?_⟩
        · simp [hitState, hst, hitStep, ltOpt, hdn]
        · intro j hj
          by_cases hjn : j < n
          · exact le_trans (le_of_lt hdn) (hall j hjn)
          · have : j = n := by omega
            subst this; exact le_refl _
        · intro j hj
          exact lt_of_lt_of_le hdn (hall j hj)
      · refine Or.inl ⟨?_, ?_⟩
        · simp [hitState, hst, hitStep, ltOpt, hdn]
        · intro j hj
          by_cases hjn : j < n
          · exact hall j hjn
          · have : j = n := by omega
            subst this; exact not_lt.mp hdn
    · by_cases hcond : d n < 400 ∧ d n < d k
      · refine Or.inr ⟨n, ?_, by omega, hcond.1, ?_, ?_⟩
        · simp only [hitState, hst, hitStep, ltOpt, decide_eq_true_eq]
          rw [if_pos ⟨hcond.1, hcond.2⟩]
        · intro j hj
          by_cases hjn : j < n
          · exact le_trans (le_of_lt hcond.2) (hmin j hjn)
          · have : j = n := by omega
            subst this; exact le_refl _
        · intro j hj
          exact lt_of_lt_of_le hcond.2 (hmin j hj)
      · refine Or.inr ⟨k, ?_, by omega, h400, ?_, hfirst⟩
        · simp only [hitState, hst, hitStep, ltOpt, decide_eq_true_eq]
          rw [if_neg hcond]
        · intro j hj
          by_cases hjn : j < n
          · exact hmin j hjn
          · have : j = n := by omega
            subst this
            rcases not_and_or.mp hcond with hge | hge
            · exact le_trans (le_of_lt h400) (not_lt.mp hge)
            · exact not_lt.mp hge

/-- C2: the hit tester returns `some k` exactly when `k` is the first
index attaining the minimum pixel distance and that minimum is below the
20-pixel threshold (squared: 400), and `none` exactly when every point is
at distance ≥ 20; in particular a pointer at distance 0 from point `i`
(and nonzero distance from every other point) yields `some i`, and a
pointer at distance ≥ 25 (squared: 625) from every point yields `none`. -/
theorem handleMouseMove_spec (xs ys : List ℚ) (w h m mx my : ℚ) :
    (∀ k, handleMouseMove xs ys w h m mx my = some k ↔
      (k < xs.length ∧ distSq xs ys w h m mx my k < 400 ∧
       (∀ j < xs.length, distSq xs ys w h m mx my k ≤ distSq xs ys w h m mx my j) ∧
       (∀ j < k, distSq xs ys w h m mx my k < distSq xs ys w h m mx my j))) ∧
    (handleMouseMove xs ys w h m mx my = none ↔
      ∀ j < xs.length, 400 ≤ distSq xs ys w h m mx my j) ∧
    (∀ i < xs.length, distSq xs ys w h m mx my i = 0 →
      (∀ j < xs.length, j ≠ i → distSq xs ys w h m mx my j ≠ 0) →
      handleMouseMove xs ys w h m mx my = some i) ∧
    ((∀ j < xs.length, 625 ≤ distSq xs ys w h m mx my j) →
      handleMouseMove xs ys w h m mx my = none) := by
  set d := distSq xs ys w h m mx my with hd
  set n := xs.length with hn
  have hr : handleMouseMove xs ys w h m mx my = (hitState d n).1 := rfl
  have hchar : ∀ k, (hitState d n).1 = some k ↔
      (k < n ∧ d k < 400 ∧ (∀ j < n, d k ≤ d j) ∧ (∀ j < k, d k < d j)) := by
    intro k
    constructor
    · intro hk
      rcases hitState_spec d n with ⟨hst, _⟩ | ⟨k', hst, hk', h400, hmin, hfirst⟩
      · rw [hst] at hk; exact absurd hk (by simp)
      · rw [hst] at hk
        simp only [Option.some.injEq] at hk
        subst hk
        exact ⟨hk', h400, hmin, hfirst⟩
    · rintro ⟨hkn, h400, hmin, hfirst⟩
      rcases hitState_spec d n with ⟨hst, hall⟩ | ⟨k', hst, hk', h400', hmin', hfirst'⟩
      · exact absurd h400 (not_lt.mpr (hall k hkn))
      · rw [hst]
        have heq : d k' = d k := le_antisymm (hmin' k hkn) (hmin k' hk')
        rcases lt_trichotomy k' k with hlt | heq' | hgt
        · exact absurd heq (ne_of_gt (hfirst k' hlt))
        · simp [heq']
        · exact absurd heq (ne_of_lt (hfirst' k hgt))
  have hnone : (hitState d n).1 = none ↔ ∀ j < n, 400 ≤ d j := by
    constructor
    · intro hnn
      rcases hitState_spec d n with ⟨_, hall⟩ | ⟨k', hst, _, _, _, _⟩
      · exact hall
      · rw [hst] at hnn; exact absurd hnn (by simp)
    · intro hall
      rcases hitState_spec d n with ⟨hst, _⟩ | ⟨k', hst, hk', h400', _, _⟩
      · rw [hst]
      · exact absurd h400' (not_lt.mpr (hall k' hk'))
  refine ⟨fun k => hr ▸ hchar k, hr ▸ hnone, ?_, ?_⟩
  · intro i hi h0 hothers
    rw [hr, hchar i]
    refine ⟨hi, by rw [h0]; norm_num, ?_, ?_⟩
    · intro j _
      rw [h0]; exact distSq_nonneg xs ys w h m mx my j
    · intro j hj
      rw [h0]
      have hne := hothers j (lt_trans hj hi) (Nat.ne_of_lt hj)
      exact lt_of_le_of_ne (distSq_nonneg xs ys w h m mx my j) (Ne.symm hne)
  · intro hall
    rw [hr, hnone]
    intro j hj
    exact le_trans (by norm_num) (hall j hj)

/-- Witness for C2: a single point at pixel position (50, 350) under the
default configuration; the pointer exactly there hovers index 0. -/
theorem handleMouseMove_spec_witness :
    handleMouseMove [0] [0] 600 400 50 50 350 = some 0 := by
  have h := (handleMouseMove_spec [0] [0] 600 400 50 50 350).2.2.1 0
    (by norm_num)
    (by norm_num [distSq, calculateScales, dMin, dMax, orOne, List.getD])
  exact h (by intro j hj hne; exfalso; simp at hj; omega)

/-- C8: when two points are equidistant from the pointer at the minimum
distance and that distance is below the threshold, the hit tester
resolves to the lowest index attaining the minimum: it returns some
`k ≤ i` whose distance equals the minimum and below which every point is
strictly farther. -/
theorem handleMouseMove_tiebreak (xs ys : List ℚ) (w h m mx my : ℚ) (i j : ℕ)
    (hij : i < j) (hjn : j < xs.length)
    (heq : distSq xs ys w h m mx my i = distSq xs ys w h m mx my j)
    (hmin : ∀ l < xs.length, distSq xs ys w h m mx my i ≤ distSq xs ys w h m mx my l)
    (hthr : distSq xs ys w h m mx my i < 400) :
    ∃ k, handleMouseMove xs ys w h m mx my = some k ∧ k ≤ i ∧
      distSq xs ys w h m mx my k = distSq xs ys w h m mx my i ∧
      ∀ l < k, distSq xs ys w h m mx my i < distSq xs ys w h m mx my l := by
  set d := distSq xs ys w h m mx my with hd
  set n := xs.length with hn
  have hin : i < n := lt_trans hij hjn
  rcases hitState_spec d n with ⟨_, hall⟩ | ⟨k, hst, hkn, h400, hminK, hfirst⟩
  · exact absurd hthr (not_lt.mpr (hall i hin))
  · have hkeq : d k = d i := le_antisymm (hminK i hin) (hmin k hkn)
    have hki : k ≤ i := by
      by_contra hgt
      push_neg at hgt
      exact absurd hkeq (ne_of_lt (hfirst i hgt))
    refine ⟨k, ?_, hki, hkeq, ?_⟩
    · show (hitState d n).1 = some k
      rw [hst]
    · intro l hl
      exact hkeq ▸ hfirst l hl

/-- Division as it feeds the gridline position: `none` stands for a value
that is not a well-defined finite number (IEEE `NaN` for `0/0`,
`±Infinity` otherwise), produced when the step count is zero; `none`
propagates through the subsequent arithmetic as `NaN` does. -/
def jsDiv (a b : ℚ) : Option ℚ := if b = 0 then none else some (a / b)

/-- One drawing operation issued on the canvas context by `drawGraph`,
in source order.  Gridline and grid-label coordinates are `Option ℚ`
because they flow through `jsDiv`; all other coordinates are finite. -/
inductive DrawCmd where
  | clear (w h : ℚ)
  | gridLineV (canvasX : Option ℚ)
  | labelX (value canvasX : Option ℚ)
  | gridLineH (canvasY : Option ℚ)
  | labelY (value canvasY : Option ℚ)
  | axisLine (x1 y1 x2 y2 : ℚ)
  | polyMove (x y : ℚ)
  | polyLine (x y : ℚ)
  | point (x y : ℚ)
  | hoverCircle (x y : ℚ)
  | hoverText (x y cx cy : ℚ)
deriving Repr, DecidableEq

/-- Number of iterations of `for (let i = 0; i <= steps; i++)` for a
rational bound: none when `steps < 0`, otherwise `⌊steps⌋ + 1`
(the loop variable is an integer). -/
def loopCount (steps : ℚ) : ℕ := if steps < 0 then 0 else (⌊steps⌋).toNat + 1

/-- Vertical grid section of `drawGraph` (lines 72–85):
`xSteps = min(10, maxX - minX)`; each iteration strokes a line at
`toCanvasX (minX + (maxX - minX) * (i / xSteps))` and labels it with that
data value. -/
def gridV (s : Scales) (margin : ℚ) : List DrawCmd :=
  let steps := min 10 (s.maxX - s.minX)
  ((List.range (loopCount steps)).map (fun (i : ℕ) =>
    let x := (jsDiv (i : ℚ) steps).map (fun t => s.minX + (s.maxX - s.minX) * t)
    [DrawCmd.gridLineV (x.map (toCanvasX s margin)),
     DrawCmd.labelX x (x.map (toCanvasX s margin))])).flatten

/-- Horizontal grid section of `drawGraph` (lines 88–101). -/
def gridH (s : Scales) (height margin : ℚ) : List DrawCmd :=
  let steps := min 10 (s.maxY - s.minY)
  ((List.range (loopCount steps)).map (fun (i : ℕ) =>
    let y := (jsDiv (i : ℚ) steps).map (fun t => s.minY + (s.maxY - s.minY) * t)
    [DrawCmd.gridLineH (y.map (toCanvasY s height margin)),
     DrawCmd.labelY y (y.map (toCanvasY s height margin))])).flatten

/-- Series polyline section (lines 119–134): `moveTo` at index 0,
`lineTo` afterwards, in index order. -/
def polylineCmds (xs ys : List ℚ) (s : Scales) (height margin : ℚ) : List DrawCmd :=
  (List.range xs.length).map (fun i =>
    if i = 0 then
      DrawCmd.polyMove (toCanvasX s margin (xs.getD i 0)) (toCanvasY s height margin (ys.getD i 0))
    else
      DrawCmd.polyLine (toCanvasX s margin (xs.getD i 0)) (toCanvasY s height margin (ys.getD i 0)))

/-- Point-marker section (lines 136–145). -/
def pointCmds (xs ys : List ℚ) (s : Scales) (height margin : ℚ) : List DrawCmd :=
  (List.range xs.length).map (fun i =>
    DrawCmd.point (toCanvasX s margin (xs.getD i 0)) (toCanvasY s height margin (ys.getD i 0)))

/-- Hover-highlight section (lines 148–167), guarded by
`hoveredPoint !== null && hoveredPoint >= 0 && hoveredPoint < xData.length`;
the index is a natural number here, so the `>= 0` conjunct is subsumed. -/
def hoverCmds (xs ys : List ℚ) (s : Scales) (height margin : ℚ) : Option ℕ → List DrawCmd
  | none => []
  | some i =>
    if i < xs.length then
      [DrawCmd.hoverCircle (toCanvasX s margin (xs.getD i 0))
         (toCanvasY s height margin (ys.getD i 0)),
       DrawCmd.hoverText (xs.getD i 0) (ys.getD i 0)
         (toCanvasX s margin (xs.getD i 0) + 10)
         (toCanvasY s height margin (ys.getD i 0) - 10)]
    else []

/-- `drawGraph` (lines 52–168) as the sequence of drawing operations
issued on the canvas context: clear, grid (vertical then horizontal with
labels), the two axes (lines 103–117), the polyline, the point markers,
and the hover highlight. -/
def drawGraph (xs ys : List ℚ) (width height margin : ℚ) (hover : Option ℕ) : List DrawCmd :=
  let s := calculateScales xs ys width height margin
  DrawCmd.clear width height ::
    (gridV s margin ++ gridH s height margin ++
     [DrawCmd.axisLine margin (height - margin) (width - margin) (height - margin),
      DrawCmd.axisLine margin margin margin (height - margin)] ++
     polylineCmds xs ys s height margin ++
     pointCmds xs ys s height margin ++
     hoverCmds xs ys s height margin hover)

/-- What the `Graph` component renders. -/
inductive RenderOutput where
  | errorDisplay : RenderOutput
  | canvas : List DrawCmd → RenderOutput
deriving Repr, DecidableEq

/-- The `Graph` component (lines 211–227): the precondition check at
line 212 returns the error `<div>` — so no canvas is mounted and the
draw effect finds no surface to paint — otherwise a canvas on which
`drawGraph` runs. -/
def GraphRender (xs ys : List ℚ) (width height margin : ℚ) (hover : Option ℕ) : RenderOutput :=
  if xs.length ≠ ys.length ∨ xs.length = 0 then RenderOutput.errorDisplay
  else RenderOutput.canvas (drawGraph xs ys width height margin hover)

/-- The drawing operations a render actually issues. -/
def drawnCmds : RenderOutput → List DrawCmd
  | RenderOutput.errorDisplay => []
  | RenderOutput.canvas cmds => cmds

/-- Witness for C8: two coincident points; the pointer exactly on them is
at equal (zero) distance from both, and the hover resolves to index 0. -/
theorem handleMouseMove_tiebreak_witness :
    handleMouseMove [0, 0] [0, 0] 600 400 50 50 350 = some 0 := by
  have hd0 : distSq [0, 0] [0, 0] 600 400 50 50 350 0 = 0 := by
    norm_num [distSq, calculateScales, dMin, dMax, orOne, List.getD]
  have hd1 : distSq [0, 0] [0, 0] 600 400 50 50 350 1 = 0 := by
    norm_num [distSq, calculateScales, dMin, dMax, orOne, List.getD]
  obtain ⟨k, hk, hki, -, -⟩ :=
    handleMouseMove_tiebreak [0, 0] [0, 0] 600 400 50 50 350 0 1
      (by norm_num) (by decide)
      (by rw [hd0, hd1])
      (by intro l _; rw [hd0]; exact distSq_nonneg [0, 0] [0, 0] 600 400 50 50 350 l)
      (by rw [hd0]; norm_num)
  have hk0 : k = 0 := Nat.le_zero.mp hki
  rw [hk0] at hk
  exact hk

/-- C3: whenever the two sequences differ in length or are empty, the
view renders the error display and issues no drawing operation. -/
theorem precondition_failure_renders_error (xs ys : List ℚ) (w h m : ℚ)
    (hover : Option ℕ) (hbad : xs.length ≠ ys.length ∨ xs.length = 0) :
    GraphRender xs ys w h m hover = RenderOutput.errorDisplay ∧
    drawnCmds (GraphRender xs ys w h m hover) = [] := by
  have herr : GraphRender xs ys w h m hover = RenderOutput.errorDisplay := by
    unfold GraphRender; rw [if_pos hbad]
  exact ⟨herr, by rw [herr]; rfl⟩

/-- Witness for C3 at X = [1,2], Y = [1]. -/
theorem precondition_failure_witness :
    GraphRender [1, 2] [1] 600 400 50 none = RenderOutput.errorDisplay :=
  (precondition_failure_renders_error [1, 2] [1] 600 400 50 none
    (Or.inl (by decide))).1

/-- Canvas-x positions of the vertical gridline strokes, in draw order. -/
def vGridXs (cmds : List DrawCmd) : List (Option ℚ) :=
  cmds.filterMap (fun c => match c with
    | DrawCmd.gridLineV x => some x
    | _ => none)

/-- Canvas-y positions of the horizontal gridline strokes, in draw order. -/
def hGridYs (cmds : List DrawCmd) : List (Option ℚ) :=
  cmds.filterMap (fun c => match c with
    | DrawCmd.gridLineH y => some y
    | _ => none)

/-- Data-space values of the X-axis grid labels, in draw order. -/
def xLabelVals (cmds : List DrawCmd) : List (Option ℚ) :=
  cmds.filterMap (fun c => match c with
    | DrawCmd.labelX v _ => some v
    | _ => none)

/-- Data-space values of the Y-axis grid labels, in draw order. -/
def yLabelVals (cmds : List DrawCmd) : List (Option ℚ) :=
  cmds.filterMap (fun c => match c with
    | DrawCmd.labelY v _ => some v
    | _ => none)

/-- Whether a drawing operation belongs to the hover highlight. -/
def isHoverOp : DrawCmd → Bool
  | DrawCmd.hoverCircle _ _ => true
  | DrawCmd.hoverText _ _ _ _ => true
  | _ => false

/-- The hover-highlight operations a command list contains. -/
def hoverOps (cmds : List DrawCmd) : List DrawCmd := cmds.filter isHoverOp

theorem vGridXs_append (l1 l2 : List DrawCmd) :
    vGridXs (l1 ++ l2) = vGridXs l1 ++ vGridXs l2 := List.filterMap_append l1 l2 _

theorem hGridYs_append (l1 l2 : List DrawCmd) :
    hGridYs (l1 ++ l2) = hGridYs l1 ++ hGridYs l2 := List.filterMap_append l1 l2 _

theorem xLabelVals_append (l1 l2 : List DrawCmd) :
    xLabelVals (l1 ++ l2) = xLabelVals l1 ++ xLabelVals l2 := List.filterMap_append l1 l2 _

theorem yLabelVals_append (l1 l2 : List DrawCmd) :
    yLabelVals (l1 ++ l2) = yLabelVals l1 ++ yLabelVals l2 := List.filterMap_append l1 l2 _

theorem mem_gridV (s : Scales) (m : ℚ) (c : DrawCmd) (hc : c ∈ gridV s m) :
    (∃ x, c = DrawCmd.gridLineV x) ∨ ∃ v x, c = DrawCmd.labelX v x := by
  simp only [gridV, List.mem_flatten, List.mem_map] at hc
  obtain ⟨l, ⟨i, hi, rfl⟩, hcl⟩ := hc
  simp only [List.mem_cons, List.not_mem_nil, or_false] at hcl
  rcases hcl with rfl | rfl
  · exact Or.inl ⟨_, rfl⟩
  · exact Or.inr ⟨_, _, rfl⟩

theorem mem_gridH (s : Scales) (hq m : ℚ) (c : DrawCmd) (hc : c ∈ gridH s hq m) :
    (∃ y, c = DrawCmd.gridLineH y) ∨ ∃ v y, c = DrawCmd.labelY v y := by
  simp only [gridH, List.mem_flatten, List.mem_map] at hc
  obtain ⟨l, ⟨i, hi, rfl⟩, hcl⟩ := hc
  simp only [List.mem_cons, List.not_mem_nil, or_false] at hcl
  rcases hcl with rfl | rfl
  · exact Or.inl ⟨_, rfl⟩
  · exact Or.inr ⟨_, _, rfl⟩

theorem mem_polylineCmds (xs ys : List ℚ) (s : Scales) (hq m : ℚ) (c : DrawCmd)
    (hc : c ∈ polylineCmds xs ys s hq m) :
    (∃ x y, c = DrawCmd.polyMove x y) ∨ ∃ x y, c = DrawCmd.polyLine x y := by
  simp only [polylineCmds, List.mem_map] at hc
  obtain ⟨i, hi, rfl⟩ := hc
  by_cases h0 : i = 0
  · simp only [h0, if_pos rfl]
    exact Or.inl ⟨_, _, rfl⟩
  · simp only [if_neg h0]
    exact Or.inr ⟨_, _, rfl⟩

theorem mem_pointCmds (xs ys : List ℚ) (s : Scales) (hq m : ℚ) (c : DrawCmd)
    (hc : c ∈ pointCmds xs ys s hq m) : ∃ x y, c = DrawCmd.point x y := by
  simp only [pointCmds, List.mem_map] at hc
  obtain ⟨i, hi, rfl⟩ := hc
  exact ⟨_, _, rfl⟩

theorem mem_hoverCmds (xs ys : List ℚ) (s : Scales) (hq m : ℚ) (hov : Option ℕ)
    (c : DrawCmd) (hc : c ∈ hoverCmds xs ys s hq m hov) :
    (∃ x y, c = DrawCmd.hoverCircle x y) ∨ ∃ x y cx cy, c = DrawCmd.hoverText x y cx cy := by
  cases hov with
  | none => exact absurd hc (List.not_mem_nil c)
  | some i =>
    simp only [hoverCmds] at hc
    by_cases hlt : i < xs.length
    · rw [if_pos hlt] at hc
      simp only [List.mem_cons, List.not_mem_nil, or_false] at hc
      rcases hc with rfl | rfl
      · exact Or.inl ⟨_, _, rfl⟩
      · exact Or.inr ⟨_, _, _, _, rfl⟩
    · rw [if_neg hlt] at hc
      exact absurd hc (List.not_mem_nil c)

theorem vGridXs_cons_clear (wq hq : ℚ) (l : List DrawCmd) :
    vGridXs (DrawCmd.clear wq hq :: l) = vGridXs l := rfl

theorem hGridYs_cons_clear (wq hq : ℚ) (l : List DrawCmd) :
    hGridYs (DrawCmd.clear wq hq :: l) = hGridYs l := rfl

theorem xLabelVals_cons_clear (wq hq : ℚ) (l : List DrawCmd) :
    xLabelVals (DrawCmd.clear wq hq :: l) = xLabelVals l := rfl

theorem yLabelVals_cons_clear (wq hq : ℚ) (l : List DrawCmd) :
    yLabelVals (DrawCmd.clear wq hq :: l) = yLabelVals l := rfl

/-- The canvas-x positions of the vertical gridlines drawn by `gridV`:
one per loop iteration, at `toCanvasX (minX + (maxX − minX)·(i/xSteps))`. -/
theorem vGridXs_gridV (s : Scales) (m : ℚ) :
    vGridXs (gridV s m) =
      (List.range (loopCount (min 10 (s.maxX - s.minX)))).map
        (fun (i : ℕ) => ((jsDiv (i : ℚ) (min 10 (s.maxX - s.minX))).map
          (fun t => s.minX + (s.maxX - s.minX) * t)).map (toCanvasX s m)) := by
  simp only [gridV, vGridXs]
  generalize List.range (loopCount (min 10 (s.maxX - s.minX))) = l
  induction l with
  | nil => rfl
  | cons a t ih =>
    simp only [List.map_cons, List.flatten_cons, List.filterMap_append, ih]
    rfl

/-- The data values of the X grid labels drawn by `gridV`. -/
theorem xLabelVals_gridV (s : Scales) (m : ℚ) :
    xLabelVals (gridV s m) =
      (List.range (loopCount (min 10 (s.maxX - s.minX)))).map
        (fun (i : ℕ) => (jsDiv (i : ℚ) (min 10 (s.maxX - s.minX))).map
          (fun t => s.minX + (s.maxX - s.minX) * t)) := by
  simp only [gridV, xLabelVals]
  generalize List.range (loopCount (min 10 (s.maxX - s.minX))) = l
  induction l with
  | nil => rfl
  | cons a t ih =>
    simp only [List.map_cons, List.flatten_cons, List.filterMap_append, ih]
    rfl

/-- The canvas-y positions of the horizontal gridlines drawn by `gridH`. -/
theorem hGridYs_gridH (s : Scales) (hq m : ℚ) :
    hGridYs (gridH s hq m) =
      (List.range (loopCount (min 10 (s.maxY - s.minY)))).map
        (fun (i : ℕ) => ((jsDiv (i : ℚ) (min 10 (s.maxY - s.minY))).map
          (fun t => s.minY + (s.maxY - s.minY) * t)).map (toCanvasY s hq m)) := by
  simp only [gridH, hGridYs]
  generalize List.range (loopCount (min 10 (s.maxY - s.minY))) = l
  induction l with
  | nil => rfl
  | cons a t ih =>
    simp only [List.map_cons, List.flatten_cons, List.filterMap_append, ih]
    rfl

/-- The data values of the Y grid labels drawn by `gridH`. -/
theorem yLabelVals_gridH (s : Scales) (hq m : ℚ) :
    yLabelVals (gridH s hq m) =
      (List.range (loopCount (min 10 (s.maxY - s.minY)))).map
        (fun (i : ℕ) => (jsDiv (i : ℚ) (min 10 (s.maxY - s.minY))).map
          (fun t => s.minY + (s.maxY - s.minY) * t)) := by
  simp only [gridH, yLabelVals]
  generalize List.range (loopCount (min 10 (s.maxY - s.minY))) = l
  induction l with
  | nil => rfl
  | cons a t ih =>
    simp only [List.map_cons, List.flatten_cons, List.filterMap_append, ih]
    rfl

/-- `drawGraph` unfolded into its six sections. -/
theorem drawGraph_def (xs ys : List ℚ) (w h m : ℚ) (hov : Option ℕ) :
    drawGraph xs ys w h m hov = DrawCmd.clear w h ::
      (gridV (calculateScales xs ys w h m) m ++
        gridH (calculateScales xs ys w h m) h m ++
        [DrawCmd.axisLine m (h - m) (w - m) (h - m),
          DrawCmd.axisLine m m m (h - m)] ++
        polylineCmds xs ys (calculateScales xs ys w h m) h m ++
        pointCmds xs ys (calculateScales xs ys w h m) h m ++
        hoverCmds xs ys (calculateScales xs ys w h m) h m hov) := rfl

theorem vGridXs_drawGraph (xs ys : List ℚ) (w h m : ℚ) (hov : Option ℕ) :
    vGridXs (drawGraph xs ys w h m hov) =
      vGridXs (gridV (calculateScales xs ys w h m) m) := by
  have hH : vGridXs (gridH (calculateScales xs ys w h m) h m) = [] := by
    rw [vGridXs, List.filterMap_eq_nil_iff]
    intro c hc
    rcases mem_gridH _ _ _ c hc with ⟨y, rfl⟩ | ⟨v, y, rfl⟩ <;> rfl
  have hP : vGridXs (polylineCmds xs ys (calculateScales xs ys w h m) h m) = [] := by
    rw [vGridXs, List.filterMap_eq_nil_iff]
    intro c hc
    rcases mem_polylineCmds _ _ _ _ _ c hc with ⟨x, y, rfl⟩ | ⟨x, y, rfl⟩ <;> rfl
  have hQ : vGridXs (pointCmds xs ys (calculateScales xs ys w h m) h m) = [] := by
    rw [vGridXs, List.filterMap_eq_nil_iff]
    intro c hc
    obtain ⟨x, y, rfl⟩ := mem_pointCmds _ _ _ _ _ c hc
    rfl
  have hR : vGridXs (hoverCmds xs ys (calculateScales xs ys w h m) h m hov) = [] := by
    rw [vGridXs, List.filterMap_eq_nil_iff]
    intro c hc
    rcases mem_hoverCmds _ _ _ _ _ _ c hc with ⟨x, y, rfl⟩ | ⟨x, y, cx, cy, rfl⟩ <;> rfl
  have hax : vGridXs [DrawCmd.axisLine m (h - m) (w - m) (h - m),
      DrawCmd.axisLine m m m (h - m)] = [] := rfl
  rw [drawGraph_def, vGridXs_cons_clear, vGridXs_append, vGridXs_append,
    vGridXs_append, vGridXs_append, vGridXs_append, hH, hP, hQ, hR, hax]
  simp

theorem hGridYs_drawGraph (xs ys : List ℚ) (w h m : ℚ) (hov : Option ℕ) :
    hGridYs (drawGraph xs ys w h m hov) =
      hGridYs (gridH (calculateScales xs ys w h m) h m) := by
  have hG : hGridYs (gridV (calculateScales xs ys w h m) m) = [] := by
    rw [hGridYs, List.filterMap_eq_nil_iff]
    intro c hc
    rcases mem_gridV _ _ c hc with ⟨x, rfl⟩ | ⟨v, x, rfl⟩ <;> rfl
  have hP : hGridYs (polylineCmds xs ys (calculateScales xs ys w h m) h m) = [] := by
    rw [hGridYs, List.filterMap_eq_nil_iff]
    intro c hc
    rcases mem_polylineCmds _ _ _ _ _ c hc with ⟨x, y, rfl⟩ | ⟨x, y, rfl⟩ <;> rfl
  have hQ : hGridYs (pointCmds xs ys (calculateScales xs ys w h m) h m) = [] := by
    rw [hGridYs, List.filterMap_eq_nil_iff]
    intro c hc
    obtain ⟨x, y, rfl⟩ := mem_pointCmds _ _ _ _ _ c hc
    rfl
  have hR : hGridYs (hoverCmds xs ys (calculateScales xs ys w h m) h m hov) = [] := by
    rw [hGridYs, List.filterMap_eq_nil_iff]
    intro c hc
    rcases mem_hoverCmds _ _ _ _ _ _ c hc with ⟨x, y, rfl⟩ | ⟨x, y, cx, cy, rfl⟩ <;> rfl
  have hax : hGridYs [DrawCmd.axisLine m (h - m) (w - m) (h - m),
      DrawCmd.axisLine m m m (h - m)] = [] := rfl
  rw [drawGraph_def, hGridYs_cons_clear, hGridYs_append, hGridYs_append,
    hGridYs_append, hGridYs_append, hGridYs_append, hG, hP, hQ, hR, hax]
  simp

theorem xLabelVals_drawGraph (xs ys : List ℚ) (w h m : ℚ) (hov : Option ℕ) :
    xLabelVals (drawGraph xs ys w h m hov) =
      xLabelVals (gridV (calculateScales xs ys w h m) m) := by
  have hH : xLabelVals (gridH (calculateScales xs ys w h m) h m) = [] := by
    rw [xLabelVals, List.filterMap_eq_nil_iff]
    intro c hc
    rcases mem_gridH _ _ _ c hc with ⟨y, rfl⟩ | ⟨v, y, rfl⟩ <;> rfl
  have hP : xLabelVals (polylineCmds xs ys (calculateScales xs ys w h m) h m) = [] := by
    rw [xLabelVals, List.filterMap_eq_nil_iff]
    intro c hc
    rcases mem_polylineCmds _ _ _ _ _ c hc with ⟨x, y, rfl⟩ | ⟨x, y, rfl⟩ <;> rfl
  have hQ : xLabelVals (pointCmds xs ys (calculateScales xs ys w h m) h m) = [] := by
    rw [xLabelVals, List.filterMap_eq_nil_iff]
    intro c hc
    obtain ⟨x, y, rfl⟩ := mem_pointCmds _ _ _ _ _ c hc
    rfl
  have hR : xLabelVals (hoverCmds xs ys (calculateScales xs ys w h m) h m hov) = [] := by
    rw [xLabelVals, List.filterMap_eq_nil_iff]
    intro c hc
    rcases mem_hoverCmds _ _ _ _ _ _ c hc with ⟨x, y, rfl⟩ | ⟨x, y, cx, cy, rfl⟩ <;> rfl
  have hax : xLabelVals [DrawCmd.axisLine m (h - m) (w - m) (h - m),
      DrawCmd.axisLine m m m (h - m)] = [] := rfl
  rw [drawGraph_def, xLabelVals_cons_clear, xLabelVals_append, xLabelVals_append,
    xLabelVals_append, xLabelVals_append, xLabelVals_append, hH, hP, hQ, hR, hax]
  simp

theorem yLabelVals_drawGraph (xs ys : List ℚ) (w h m : ℚ) (hov : Option ℕ) :
    yLabelVals (drawGraph xs ys w h m hov) =
      yLabelVals (gridH (calculateScales xs ys w h m) h m) := by
  have hG : yLabelVals (gridV (calculateScales xs ys w h m) m) = [] := by
    rw [yLabelVals, List.filterMap_eq_nil_iff]
    intro c hc
    rcases mem_gridV _ _ c hc with ⟨x, rfl⟩ | ⟨v, x, rfl⟩ <;> rfl
  have hP : yLabelVals (polylineCmds xs ys (calculateScales xs ys w h m) h m) = [] := by
    rw [yLabelVals, List.filterMap_eq_nil_iff]
    intro c hc
    rcases mem_polylineCmds _ _ _ _ _ c hc with ⟨x, y, rfl⟩ | ⟨x, y, rfl⟩ <;> rfl
  have hQ : yLabelVals (pointCmds xs ys (calculateScales xs ys w h m) h m) = [] := by
    rw [yLabelVals, List.filterMap_eq_nil_iff]
    intro c hc
    obtain ⟨x, y, rfl⟩ := mem_pointCmds _ _ _ _ _ c hc
    rfl
  have hR : yLabelVals (hoverCmds xs ys (calculateScales xs ys w h m) h m hov) = [] := by
    rw [yLabelVals, List.filterMap_eq_nil_iff]
    intro c hc
    rcases mem_hoverCmds _ _ _ _ _ _ c hc with ⟨x, y, rfl⟩ | ⟨x, y, cx, cy, rfl⟩ <;> rfl
  have hax : yLabelVals [DrawCmd.axisLine m (h - m) (w - m) (h - m),
      DrawCmd.axisLine m m m (h - m)] = [] := rfl
  rw [drawGraph_def, yLabelVals_cons_clear, yLabelVals_append, yLabelVals_append,
    yLabelVals_append, yLabelVals_append, yLabelVals_append, hG, hP, hQ, hR, hax]
  simp

/-- The hover-highlight operations of a full redraw are exactly those of
the hover section: no other layer emits them. -/
theorem hoverOps_drawGraph (xs ys : List ℚ) (w h m : ℚ) (hov : Option ℕ) :
    hoverOps (drawGraph xs ys w h m hov) =
      hoverCmds xs ys (calculateScales xs ys w h m) h m hov := by
  have hG : hoverOps (gridV (calculateScales xs ys w h m) m) = [] := by
    rw [hoverOps, List.filter_eq_nil_iff]
    intro c hc
    rcases mem_gridV _ _ c hc with ⟨x, rfl⟩ | ⟨v, x, rfl⟩ <;> simp [isHoverOp]
  have hH : hoverOps (gridH (calculateScales xs ys w h m) h m) = [] := by
    rw [hoverOps, List.filter_eq_nil_iff]
    intro c hc
    rcases mem_gridH _ _ _ c hc with ⟨y, rfl⟩ | ⟨v, y, rfl⟩ <;> simp [isHoverOp]
  have hP : hoverOps (polylineCmds xs ys (calculateScales xs ys w h m) h m) = [] := by
    rw [hoverOps, List.filter_eq_nil_iff]
    intro c hc
    rcases mem_polylineCmds _ _ _ _ _ c hc with ⟨x, y, rfl⟩ | ⟨x, y, rfl⟩ <;>
      simp [isHoverOp]
  have hQ : hoverOps (pointCmds xs ys (calculateScales xs ys w h m) h m) = [] := by
    rw [hoverOps, List.filter_eq_nil_iff]
    intro c hc
    obtain ⟨x, y, rfl⟩ := mem_pointCmds _ _ _ _ _ c hc
    simp [isHoverOp]
  have hR : hoverOps (hoverCmds xs ys (calculateScales xs ys w h m) h m hov) =
      hoverCmds xs ys (calculateScales xs ys w h m) h m hov := by
    rw [hoverOps, List.filter_eq_self]
    intro c hc
    rcases mem_hoverCmds _ _ _ _ _ _ c hc with ⟨x, y, rfl⟩ | ⟨x, y, cx, cy, rfl⟩ <;>
      simp [isHoverOp]
  have hax : hoverOps [DrawCmd.axisLine m (h - m) (w - m) (h - m),
      DrawCmd.axisLine m m m (h - m)] = [] := rfl
  have hclear : hoverOps (DrawCmd.clear w h ::
      (gridV (calculateScales xs ys w h m) m ++
        gridH (calculateScales xs ys w h m) h m ++
        [DrawCmd.axisLine m (h - m) (w - m) (h - m),
          DrawCmd.axisLine m m m (h - m)] ++
        polylineCmds xs ys (calculateScales xs ys w h m) h m ++
        pointCmds xs ys (calculateScales xs ys w h m) h m ++
        hoverCmds xs ys (calculateScales xs ys w h m) h m hov)) =
      hoverOps (gridV (calculateScales xs ys w h m) m ++
        gridH (calculateScales xs ys w h m) h m ++
        [DrawCmd.axisLine m (h - m) (w - m) (h - m),
          DrawCmd.axisLine m m m (h - m)] ++
        polylineCmds xs ys (calculateScales xs ys w h m) h m ++
        pointCmds xs ys (calculateScales xs ys w h m) h m ++
        hoverCmds xs ys (calculateScales xs ys w h m) h m hov) := rfl
  rw [drawGraph_def, hclear, hoverOps, List.filter_append, List.filter_append,
    List.filter_append, List.filter_append, List.filter_append]
  simp only [show ∀ l, List.filter isHoverOp l = hoverOps l from fun _ => rfl]
  rw [hG, hH, hP, hQ, hR, hax]
  simp

theorem maxX_eq (xs ys : List ℚ) (w h m : ℚ) :
    (calculateScales xs ys w h m).maxX = dMax xs := rfl

theorem maxY_eq (xs ys : List ℚ) (w h m : ℚ) :
    (calculateScales xs ys w h m).maxY = dMax ys := rfl

/-- C9: after any pointer move the hover state is `none` or an index
strictly below the series length; pointer leave always yields `none`;
and the renderer's range guard means a render whose hover index is out
of range issues no hover-highlight operation at all, so the highlight
never reads past the series. -/
theorem hover_state_invariant :
    (∀ (xs ys : List ℚ) (w h m mx my : ℚ) (k : ℕ),
      handleMouseMove xs ys w h m mx my = some k → k < xs.length) ∧
    handleMouseLeave = none ∧
    (∀ (xs ys : List ℚ) (w h m : ℚ) (hov : Option ℕ),
      (∀ i, hov = some i → xs.length ≤ i) →
      hoverOps (drawGraph xs ys w h m hov) = []) := by
  refine ⟨?_, rfl, ?_⟩
  · intro xs ys w h m mx my k hk
    rcases hitState_spec (distSq xs ys w h m mx my) xs.length with
      ⟨hst, _⟩ | ⟨k', hst, hk', _, _, _⟩
    · have hnone : handleMouseMove xs ys w h m mx my = none := by
        show (hitState _ _).1 = none
        rw [hst]
      rw [hnone] at hk
      cases hk
    · have hsome : handleMouseMove xs ys w h m mx my = some k' := by
        show (hitState _ _).1 = some k'
        rw [hst]
      rw [hsome] at hk
      injection hk with hkk
      omega
  · intro xs ys w h m hov hout
    rw [hoverOps_drawGraph]
    cases hov with
    | none => rfl
    | some i =>
      have hle := hout i rfl
      simp only [hoverCmds]
      rw [if_neg (by omega)]

/-- Witness for C9: rendering a one-point series with the out-of-range
hover index 5 issues no hover-highlight operation. -/
theorem hover_state_invariant_witness :
    hoverOps (drawGraph [0] [0] 600 400 50 (some 5)) = [] :=
  hover_state_invariant.2.2 [0] [0] 600 400 50 (some 5)
    (by intro i hi; cases hi; decide)

/-- C10: for a valid series with zero range on an axis, that axis's grid
loop runs once with step count 0 and evaluates the gridline position as
`min + range·(0/0)` — an indeterminate term, `NaN` under IEEE
semantics — so the gridline stroke coordinate and the label value handed
to the drawing calls are not well-defined finite values
(modelled `none`), not the flat line the spec promises. -/
theorem degenerate_grid_nan (xs ys : List ℚ) (w h m : ℚ) (hov : Option ℕ)
    (hlen : xs.length = ys.length) (hne : xs ≠ []) :
    (dMax xs = dMin xs →
      vGridXs (drawGraph xs ys w h m hov) = [none] ∧
      xLabelVals (drawGraph xs ys w h m hov) = [none]) ∧
    (dMax ys = dMin ys →
      hGridYs (drawGraph xs ys w h m hov) = [none] ∧
      yLabelVals (drawGraph xs ys w h m hov) = [none]) := by
  constructor
  · intro hdeg
    have h0 : min 10 ((calculateScales xs ys w h m).maxX -
        (calculateScales xs ys w h m).minX) = 0 := by
      rw [maxX_eq, minX_eq, hdeg, sub_self]
      exact min_eq_right (by norm_num)
    have hlc : loopCount (0 : ℚ) = 1 := by norm_num [loopCount]
    constructor
    · rw [vGridXs_drawGraph, vGridXs_gridV, h0, hlc,
        show List.range 1 = [0] from rfl]
      simp [jsDiv]
    · rw [xLabelVals_drawGraph, xLabelVals_gridV, h0, hlc,
        show List.range 1 = [0] from rfl]
      simp [jsDiv]
  · intro hdeg
    have h0 : min 10 ((calculateScales xs ys w h m).maxY -
        (calculateScales xs ys w h m).minY) = 0 := by
      rw [maxY_eq, minY_eq, hdeg, sub_self]
      exact min_eq_right (by norm_num)
    have hlc : loopCount (0 : ℚ) = 1 := by norm_num [loopCount]
    constructor
    · rw [hGridYs_drawGraph, hGridYs_gridH, h0, hlc,
        show List.range 1 = [0] from rfl]
      simp [jsDiv]
    · rw [yLabelVals_drawGraph, yLabelVals_gridH, h0, hlc,
        show List.range 1 = [0] from rfl]
      simp [jsDiv]

/-- Witness for C10: the constant series X = [5,5] produces a single
vertical gridline whose coordinate is not a well-defined finite value. -/
theorem degenerate_grid_nan_witness :
    vGridXs (drawGraph [5, 5] [0, 1] 600 400 50 none) = [none] :=
  ((degenerate_grid_nan [5, 5] [0, 1] 600 400 50 none (by decide)
    (by decide)).1 (by decide)).1

theorem le_foldl_max (a : ℚ) (r : List ℚ) : a ≤ r.foldl max a := by
  induction r generalizing a with
  | nil => exact le_refl a
  | cons b t ih => exact le_trans (le_max_left a b) (ih (max a b))

theorem foldl_min_le (a : ℚ) (r : List ℚ) : r.foldl min a ≤ a := by
  induction r generalizing a with
  | nil => exact le_refl a
  | cons b t ih => exact le_trans (ih (min a b)) (min_le_left a b)

theorem dMin_le_dMax (xs : List ℚ) (hne : xs ≠ []) : dMin xs ≤ dMax xs := by
  cases xs with
  | nil => exact absurd rfl hne
  | cons a r =>
    exact le_trans (foldl_min_le a r) (le_foldl_max a r)

/-- C4 (amended): for a valid series the renderer draws
`⌊min(10, range)⌋ + 1` vertical gridlines — hence at most 11, and fewer
for narrow ranges — and likewise horizontally; when the step count is
nonzero the i-th gridline sits at the data value
`min + range·(i / min(10, range))`, so the lines are evenly spaced
starting at the axis minimum, and they reach the axis maximum exactly
when `min(10, range)` is a positive integer. -/
theorem gridline_layout (xs ys : List ℚ) (w h m : ℚ) (hov : Option ℕ)
    (hlen : xs.length = ys.length) (hne : xs ≠ []) (hney : ys ≠ []) :
    ((vGridXs (drawGraph xs ys w h m hov)).length =
        (⌊min 10 (dMax xs - dMin xs)⌋).toNat + 1 ∧
      (vGridXs (drawGraph xs ys w h m hov)).length ≤ 11) ∧
    ((hGridYs (drawGraph xs ys w h m hov)).length =
        (⌊min 10 (dMax ys - dMin ys)⌋).toNat + 1 ∧
      (hGridYs (drawGraph xs ys w h m hov)).length ≤ 11) ∧
    (min 10 (dMax xs - dMin xs) ≠ 0 →
      ∀ i < (⌊min 10 (dMax xs - dMin xs)⌋).toNat + 1,
        (xLabelVals (drawGraph xs ys w h m hov))[i]? =
          some (some (dMin xs + (dMax xs - dMin xs) *
            ((i : ℚ) / min 10 (dMax xs - dMin xs))))) ∧
    (min 10 (dMax ys - dMin ys) ≠ 0 →
      ∀ i < (⌊min 10 (dMax ys - dMin ys)⌋).toNat + 1,
        (yLabelVals (drawGraph xs ys w h m hov))[i]? =
          some (some (dMin ys + (dMax ys - dMin ys) *
            ((i : ℚ) / min 10 (dMax ys - dMin ys))))) ∧
    (0 < min 10 (dMax xs - dMin xs) →
      (⌊min 10 (dMax xs - dMin xs)⌋ : ℚ) = min 10 (dMax xs - dMin xs) →
      (xLabelVals (drawGraph xs ys w h m hov))[(⌊min 10 (dMax xs - dMin xs)⌋).toNat]? =
        some (some (dMax xs))) ∧
    (0 < min 10 (dMax ys - dMin ys) →
      (⌊min 10 (dMax ys - dMin ys)⌋ : ℚ) = min 10 (dMax ys - dMin ys) →
      (yLabelVals (drawGraph xs ys w h m hov))[(⌊min 10 (dMax ys - dMin ys)⌋).toNat]? =
        some (some (dMax ys))) := by
  have hrX : 0 ≤ dMax xs - dMin xs := sub_nonneg.mpr (dMin_le_dMax xs hne)
  have hrY : 0 ≤ dMax ys - dMin ys := sub_nonneg.mpr (dMin_le_dMax ys hney)
  have hsX0 : 0 ≤ min 10 (dMax xs - dMin xs) := le_min (by norm_num) hrX
  have hsY0 : 0 ≤ min 10 (dMax ys - dMin ys) := le_min (by norm_num) hrY
  have hcntX : loopCount (min 10 (dMax xs - dMin xs)) =
      (⌊min 10 (dMax xs - dMin xs)⌋).toNat + 1 := by
    rw [loopCount, if_neg (not_lt.mpr hsX0)]
  have hcntY : loopCount (min 10 (dMax ys - dMin ys)) =
      (⌊min 10 (dMax ys - dMin ys)⌋).toNat + 1 := by
    rw [loopCount, if_neg (not_lt.mpr hsY0)]
  have hbX : (⌊min 10 (dMax xs - dMin xs)⌋).toNat + 1 ≤ 11 := by
    have h10 : ⌊min 10 (dMax xs - dMin xs)⌋ ≤ ⌊(10 : ℚ)⌋ :=
      Int.floor_le_floor (min_le_left _ _)
    have h10' : ⌊(10 : ℚ)⌋ = 10 := by norm_num
    omega
  have hbY : (⌊min 10 (dMax ys - dMin ys)⌋).toNat + 1 ≤ 11 := by
    have h10 : ⌊min 10 (dMax ys - dMin ys)⌋ ≤ ⌊(10 : ℚ)⌋ :=
      Int.floor_le_floor (min_le_left _ _)
    have h10' : ⌊(10 : ℚ)⌋ = 10 := by norm_num
    omega
  have hlenX : (vGridXs (drawGraph xs ys w h m hov)).length =
      (⌊min 10 (dMax xs - dMin xs)⌋).toNat + 1 := by
    rw [vGridXs_drawGraph, vGridXs_gridV]
    simp only [maxX_eq, minX_eq]
    rw [List.length_map, List.length_range, hcntX]
  have hlenY : (hGridYs (drawGraph xs ys w h m hov)).length =
      (⌊min 10 (dMax ys - dMin ys)⌋).toNat + 1 := by
    rw [hGridYs_drawGraph, hGridYs_gridH]
    simp only [maxY_eq, minY_eq]
    rw [List.length_map, List.length_range, hcntY]
  have hvalX : min 10 (dMax xs - dMin xs) ≠ 0 →
      ∀ i < (⌊min 10 (dMax xs - dMin xs)⌋).toNat + 1,
        (xLabelVals (drawGraph xs ys w h m hov))[i]? =
          some (some (dMin xs + (dMax xs - dMin xs) *
            ((i : ℚ) / min 10 (dMax xs - dMin xs)))) := by
    intro hsne i hi
    rw [xLabelVals_drawGraph, xLabelVals_gridV]
    simp only [maxX_eq, minX_eq]
    rw [hcntX, List.getElem?_map, List.getElem?_range hi]
    simp [jsDiv, hsne]
  have hvalY : min 10 (dMax ys - dMin ys) ≠ 0 →
      ∀ i < (⌊min 10 (dMax ys - dMin ys)⌋).toNat + 1,
        (yLabelVals (drawGraph xs ys w h m hov))[i]? =
          some (some (dMin ys + (dMax ys - dMin ys) *
            ((i : ℚ) / min 10 (dMax ys - dMin ys)))) := by
    intro hsne i hi
    rw [yLabelVals_drawGraph, yLabelVals_gridH]
    simp only [maxY_eq, minY_eq]
    rw [hcntY, List.getElem?_map, List.getElem?_range hi]
    simp [jsDiv, hsne]
  refine ⟨⟨hlenX, by rw [hlenX]; exact hbX⟩, ⟨hlenY, by rw [hlenY]; exact hbY⟩,
    hvalX, hvalY, ?_, ?_⟩
  · intro hpos hint
    have hne0 : min 10 (dMax xs - dMin xs) ≠ 0 := ne_of_gt hpos
    have hcast : (((⌊min 10 (dMax xs - dMin xs)⌋).toNat : ℕ) : ℚ) =
        min 10 (dMax xs - dMin xs) := by
      have h0 : 0 ≤ ⌊min 10 (dMax xs - dMin xs)⌋ := Int.floor_nonneg.mpr (le_of_lt hpos)
      rw [← hint]
      exact_mod_cast congrArg (fun z : ℤ => (z : ℚ)) (Int.toNat_of_nonneg h0)
    rw [hvalX hne0 (⌊min 10 (dMax xs - dMin xs)⌋).toNat (Nat.lt_succ_self _)]
    rw [hcast, div_self hne0]
    norm_num
  · intro hpos hint
    have hne0 : min 10 (dMax ys - dMin ys) ≠ 0 := ne_of_gt hpos
    have hcast : (((⌊min 10 (dMax ys - dMin ys)⌋).toNat : ℕ) : ℚ) =
        min 10 (dMax ys - dMin ys) := by
      have h0 : 0 ≤ ⌊min 10 (dMax ys - dMin ys)⌋ := Int.floor_nonneg.mpr (le_of_lt hpos)
      rw [← hint]
      exact_mod_cast congrArg (fun z : ℤ => (z : ℚ)) (Int.toNat_of_nonneg h0)
    rw [hvalY hne0 (⌊min 10 (dMax ys - dMin ys)⌋).toNat (Nat.lt_succ_self _)]
    rw [hcast, div_self hne0]
    norm_num

/-- C4 counterexample: (i) for X = [0,10] (range 10) the renderer draws
11 vertical gridlines, not at most 10 — the loop runs from `i = 0` to
`i = xSteps` inclusive; (ii) for X = [0, 5/2] the gridline data values
are 0, 1, 2, so the grid stops short of maxX = 5/2 and does not span
[minX, maxX]. -/
theorem gridline_count_counterexample :
    10 < (vGridXs (drawGraph [0, 10] [0, 1] 600 400 50 none)).length ∧
    xLabelVals (drawGraph [0, 5/2] [0, 1] 600 400 50 none) =
      [some 0, some 1, some 2] := by
  constructor
  · rw [vGridXs_drawGraph, vGridXs_gridV]
    simp only [maxX_eq, minX_eq]
    have h1 : dMax [(0 : ℚ), 10] = 10 := by norm_num [dMax]
    have h2 : dMin [(0 : ℚ), 10] = 0 := by norm_num [dMin]
    rw [h1, h2]
    have h3 : min (10 : ℚ) (10 - 0) = 10 := by norm_num
    rw [h3]
    have h4 : loopCount (10 : ℚ) = 11 := by
      rw [loopCount, if_neg (by norm_num), show ⌊(10 : ℚ)⌋ = 10 by norm_num]
      rfl
    rw [List.length_map, List.length_range, h4]
    norm_num
  · rw [xLabelVals_drawGraph, xLabelVals_gridV]
    simp only [maxX_eq, minX_eq]
    have h1 : dMax [(0 : ℚ), 5/2] = 5/2 := by norm_num [dMax]
    have h2 : dMin [(0 : ℚ), 5/2] = 0 := by norm_num [dMin]
    rw [h1, h2]
    have h3 : min (10 : ℚ) (5/2 - 0) = 5/2 := by norm_num
    rw [h3]
    have hfl : ⌊(5/2 : ℚ)⌋ = 2 := by norm_num
    have h4 : loopCount (5/2 : ℚ) = 3 := by
      rw [loopCount, if_neg (by norm_num), hfl]
      rfl
    rw [h4, show List.range 3 = [0, 1, 2] from rfl]
    simp [jsDiv]
    norm_num

/-- Witness for C4 (amended): the series X = [0,1] (range 1) draws
exactly 2 vertical gridlines. -/
theorem gridline_layout_witness :
    (vGridXs (drawGraph [0, 1] [0, 1] 600 400 50 none)).length = 2 := by
  have h := (gridline_layout [0, 1] [0, 1] 600 400 50 none rfl
    (by decide) (by decide)).1.1
  rw [h]
  have h1 : dMax [(0 : ℚ), 1] = 1 := by norm_num [dMax]
  have h2 : dMin [(0 : ℚ), 1] = 0 := by norm_num [dMin]
  rw [h1, h2]
  norm_num
